import Mathlib

/-!
Shallow embedding of `src/bot.py` (telegram-repeat-bot): the SQLite store
(`items`, `schedules` tables and the `db_*` helpers), the job registration
(`schedule_one_job`), the delivery callback (`remind_job`), the `/add` command
handler, and the startup rescheduling loop in `main`.

Time is modelled as epoch seconds (`Nat`): `timedelta(days=d)` is `d * 86400`,
`timedelta(seconds=5)` is `5`.  A `sqlite3` row is a record; the tables are
Lean lists; `AUTOINCREMENT` ids are carried explicitly in the state.
-/

namespace RepeatBot

/-- `REPEAT_DAYS = [1, 3, 7, 30]` from the source. -/
def REPEAT_DAYS : List Nat := [1, 3, 7, 30]

/-- `TZ_OFFSET_HOURS` (default 5) from the source. -/
def TZ_OFFSET_HOURS : Nat := 5

/-- `to_local`: shifts a UTC instant by the configured offset (display only). -/
def to_local (dt_utc : Nat) : Nat := dt_utc + TZ_OFFSET_HOURS * 3600

/-- A row of the `items` table: `(id, chat_id, text, created_at)`. -/
structure Item where
  id : Nat
  chat_id : Int
  text : String
  created_at : Nat
deriving Repr, DecidableEq

/-- A row of the `schedules` table:
`(id, item_id, chat_id, due_at, days, sent)`, with `sent` an `INTEGER`
defaulting to 0. -/
structure Schedule where
  id : Nat
  item_id : Nat
  chat_id : Int
  due_at : Nat
  days : Nat
  sent : Nat
deriving Repr, DecidableEq

/-- The SQLite database: both tables plus the `AUTOINCREMENT` counters. -/
structure DBState where
  items : List Item
  schedules : List Schedule
  nextItemId : Nat
  nextScheduleId : Nat
deriving Repr, DecidableEq

/-- `db_add_item`: `INSERT INTO items (chat_id, text, created_at)`;
returns the new state and `cur.lastrowid`. -/
def db_add_item (db : DBState) (chat_id : Int) (text : String) (created_at : Nat) :
    DBState × Nat :=
  (⟨db.items ++ [⟨db.nextItemId, chat_id, text, created_at⟩],
    db.schedules, db.nextItemId + 1, db.nextScheduleId⟩, db.nextItemId)

/-- `db_add_schedule`: `INSERT INTO schedules (item_id, chat_id, due_at, days, sent)
VALUES (?, ?, ?, ?, 0)`; returns the new state and `cur.lastrowid`. -/
def db_add_schedule (db : DBState) (item_id : Nat) (chat_id : Int) (due_at : Nat)
    (days : Nat) : DBState × Nat :=
  (⟨db.items,
    db.schedules ++ [⟨db.nextScheduleId, item_id, chat_id, due_at, days, 0⟩],
    db.nextItemId, db.nextScheduleId + 1⟩, db.nextScheduleId)

/-- `db_mark_sent`: `UPDATE schedules SET sent=1 WHERE id=?`. -/
def db_mark_sent (db : DBState) (schedule_id : Nat) : DBState :=
  { db with
    schedules := db.schedules.map fun s =>
      if s.id = schedule_id then { s with sent := 1 } else s }

/-- A joined row `schedules JOIN items ON items.id = schedules.item_id`, as
selected by `db_next_schedules` and `db_pending_future`. -/
structure SchedRow where
  schedule_id : Nat
  chat_id : Int
  due_at : Nat
  days : Nat
  text : String
deriving Repr, DecidableEq

/-- The `JOIN items i ON i.id = s.item_id` step for one schedule row. -/
def joinItem (db : DBState) (s : Schedule) : Option SchedRow :=
  (db.items.find? fun i => i.id == s.item_id).map fun i =>
    ⟨s.id, s.chat_id, s.due_at, s.days, i.text⟩

/-- `ORDER BY due_at ASC` on joined rows. -/
def dueLe (a b : SchedRow) : Prop := a.due_at ≤ b.due_at

instance : DecidableRel dueLe := fun a b => Nat.decLe a.due_at b.due_at

instance : IsTotal SchedRow dueLe := ⟨fun a b => Nat.le_total a.due_at b.due_at⟩

instance : IsTrans SchedRow dueLe := ⟨fun _ _ _ => Nat.le_trans⟩

/-- `ORDER BY due_at ASC` on raw schedule rows (the subqueries in
`db_list_items`). -/
def schedDueLe (a b : Schedule) : Prop := a.due_at ≤ b.due_at

instance : DecidableRel schedDueLe := fun a b => Nat.decLe a.due_at b.due_at

instance : IsTotal Schedule schedDueLe := ⟨fun a b => Nat.le_total a.due_at b.due_at⟩

instance : IsTrans Schedule schedDueLe := ⟨fun _ _ _ => Nat.le_trans⟩

/-- `ORDER BY i.id DESC` on items. -/
def itemIdGe (a b : Item) : Prop := b.id ≤ a.id

instance : DecidableRel itemIdGe := fun a b => Nat.decLe b.id a.id

instance : IsTotal Item itemIdGe := ⟨fun a b => (Nat.le_total b.id a.id)⟩

instance : IsTrans Item itemIdGe := ⟨fun _ _ _ h h2 => Nat.le_trans h2 h⟩

/-- `db_next_schedules`: `SELECT s.id, s.due_at, s.days, i.text FROM schedules s
JOIN items i ON i.id = s.item_id WHERE s.chat_id = ? AND s.sent = 0
ORDER BY s.due_at ASC LIMIT ?`. -/
def db_next_schedules (db : DBState) (chat_id : Int) (limit : Nat) : List SchedRow :=
  (List.insertionSort dueLe
    ((db.schedules.filter fun s => s.chat_id == chat_id && s.sent == 0).filterMap
      (joinItem db))).take limit

/-- `db_pending_future`: all unsent schedules joined with their items
(no `ORDER BY`). -/
def db_pending_future (db : DBState) : List SchedRow :=
  (db.schedules.filter fun s => s.sent == 0).filterMap (joinItem db)

/-- The correlated subquery of `db_list_items`: the earliest (`ORDER BY due_at
ASC LIMIT 1`) unsent schedule of one item, if any. -/
def nextUnsent (db : DBState) (item_id : Nat) : Option Schedule :=
  (List.insertionSort schedDueLe
    (db.schedules.filter fun s => s.item_id == item_id && s.sent == 0)).head?

/-- A result row of `db_list_items`:
`(item_id, text, created_at, next_due_at, next_days)`, the `next_*` columns
possibly `NULL`. -/
structure ListRow where
  item_id : Nat
  text : String
  created_at : Nat
  next_due_at : Option Nat
  next_days : Option Nat
deriving Repr, DecidableEq

/-- `db_list_items`: one row per item of the chat (`WHERE i.chat_id = ?
ORDER BY i.id DESC LIMIT ?`), annotated with the due date and day count of the
item's next unsent schedule via the two correlated subqueries. -/
def db_list_items (db : DBState) (chat_id : Int) (limit : Nat) : List ListRow :=
  ((List.insertionSort itemIdGe (db.items.filter fun i => i.chat_id == chat_id)).take
      limit).map fun i =>
    ⟨i.id, i.text, i.created_at, (nextUnsent db i.id).map Schedule.due_at,
      (nextUnsent db i.id).map Schedule.days⟩

/-- A job registered on `app.job_queue` by `schedule_one_job`: its unique name
`sch_{schedule_id}`, the `when` instant passed to `run_once`, and the `data`
dict (`schedule_id`, `text`, `days`, `due_at`). -/
structure Job where
  name : String
  schedule_id : Nat
  chat_id : Int
  when : Nat
  days : Nat
  text : String
  data_due_at : Nat
deriving Repr, DecidableEq

/-- `schedule_one_job`: registers a `run_once` job at `when = due_at_utc`
carrying the schedule data. -/
def schedule_one_job (schedule_id : Nat) (chat_id : Int) (due_at_utc : Nat)
    (days : Nat) (text : String) : Job :=
  ⟨"sch_" ++ toString schedule_id, schedule_id, chat_id, due_at_utc, days, text,
    due_at_utc⟩

/-- A Telegram message emitted by `context.bot.send_message` in `remind_job`:
the chat and the information interpolated into the text (`days`, the item text,
and the locally-rendered due instant). -/
structure Message where
  chat_id : Int
  days : Nat
  text : String
  due_local : Nat
deriving Repr, DecidableEq

/-- `remind_job`: the fired job first marks the schedule sent in the database
(`db_mark_sent`) and only then awaits `send_message`.  `delivered` is the
transport's outcome, outside the program's control: on failure the `await`
raises and no message is delivered, but the mark has already been committed. -/
def remind_job (db : DBState) (job : Job) (delivered : Bool) :
    DBState × List Message :=
  (db_mark_sent db job.schedule_id,
    if delivered then [⟨job.chat_id, job.days, job.text, to_local job.data_due_at⟩]
    else [])

/-- The usage reply of `/add` with no arguments. -/
def usage_reply : String := "Iltimos yozing:\n/add Bugun o‘rgangan mavzu"

/-- Result of the `/add` handler: the database after the handler, the jobs it
queued, and the replies it sent. -/
structure AddResult where
  db : DBState
  jobs : List Job
  replies : List String
deriving Repr, DecidableEq

/-- The `for d in REPEAT_DAYS` loop body of `add`: insert one schedule per day
count at `due = created + timedelta(days=d)` and queue its job. -/
def add_schedules_loop (db : DBState) (item_id : Nat) (chat_id : Int)
    (created : Nat) (text : String) : List Nat → DBState × List Job
  | [] => (db, [])
  | d :: ds =>
    let due := created + d * 86400
    let p := db_add_schedule db item_id chat_id due d
    let job := schedule_one_job p.2 chat_id due d text
    let rest := add_schedules_loop p.1 item_id chat_id created text ds
    (rest.1, job :: rest.2)

/-- The `/add` command handler: with no arguments it replies with the usage
message and touches nothing; otherwise it inserts one item and one schedule
per entry of `REPEAT_DAYS`, queueing a job for each. -/
def add (db : DBState) (chat_id : Int) (args : List String) (now : Nat) :
    AddResult :=
  if args.isEmpty then ⟨db, [], [usage_reply]⟩
  else
    let text := (String.intercalate " " args).trim
    let p := db_add_item db chat_id text now
    let q := add_schedules_loop p.1 p.2 chat_id now text REPEAT_DAYS
    ⟨q.1, q.2, ["✅ Saqlandi!\n📌 " ++ text ++ "\n⏰ 1, 3, 7, 30 kunda eslatadi."]⟩

/-- The `due` adjustment in `main`'s startup loop: a past-due schedule is
re-registered at `now + timedelta(seconds=5)`, a future one at its stored
`due_at`. -/
def startup_due (now due : Nat) : Nat := if due ≤ now then now + 5 else due

/-- The startup rescheduling loop of `main`: one `schedule_one_job` call per
row of `db_pending_future`, using the adjusted `due`. -/
def main_startup_jobs (db : DBState) (now : Nat) : List Job :=
  (db_pending_future db).map fun r =>
    schedule_one_job r.schedule_id r.chat_id (startup_due now r.due_at) r.days r.text

/-- `main`'s startup interaction with the store: it only reads
(`db_pending_future`) and registers jobs; the returned pair is the store after
startup and the registered jobs. -/
def main_startup (db : DBState) (now : Nat) : DBState × List Job :=
  (db, main_startup_jobs db now)

/-- Well-formedness of the store: every schedule's `item_id` refers to an
existing item (guaranteed by the `FOREIGN KEY` and by `add`, which inserts the
item first). -/
def wfDB (db : DBState) : Prop :=
  ∀ s ∈ db.schedules, ∃ i ∈ db.items, i.id = s.item_id

instance (db : DBState) : Decidable (wfDB db) := by
  unfold wfDB; infer_instance

/-- The reminder state machine of the specification (§4.3).
Modelled from the spec: the `InFlight`-with-lease design lives in the
repository iterations that are not part of `src/bot.py`, which only has the
boolean `sent` flag. -/
inductive RState where
  | pending
  | inFlight (claimed_at : Nat)
  | sent
  | failed
deriving Repr, DecidableEq

/-- Modelled from the spec: one Store record as seen by `ClaimDue`
(`id`, `due_at`, `state` with its `claimed_at` stamp). -/
structure SpecReminder where
  id : Nat
  due_at : Nat
  state : RState
deriving Repr, DecidableEq

/-- Modelled from the spec: `ClaimDue`'s selection predicate
`(state = Pending AND due_at <= now) OR
 (state = InFlight AND claimed_at + lease_duration <= now)`. -/
def claimEligible (now lease : Nat) (r : SpecReminder) : Bool :=
  match r.state with
  | .pending => decide (r.due_at ≤ now)
  | .inFlight c => decide (c + lease ≤ now)
  | .sent => false
  | .failed => false

/-- Ascending `due_at` on spec records. -/
def specDueLe (a b : SpecReminder) : Prop := a.due_at ≤ b.due_at

instance : DecidableRel specDueLe := fun a b => Nat.decLe a.due_at b.due_at

instance : IsTotal SpecReminder specDueLe := ⟨fun a b => Nat.le_total a.due_at b.due_at⟩

instance : IsTrans SpecReminder specDueLe := ⟨fun _ _ _ => Nat.le_trans⟩

/-- Modelled from the spec: `ClaimDue(now, lease_duration, limit)` selects up
to `limit` eligible records in ascending `due_at` order and atomically
transitions each to `InFlight` with `claimed_at = now`, returning the new
store and the pre-transition snapshots of the selected records. -/
def ClaimDue (recs : List SpecReminder) (now lease limit : Nat) :
    List SpecReminder × List SpecReminder :=
  let selected :=
    (List.insertionSort specDueLe (recs.filter (claimEligible now lease))).take limit
  let selIds := selected.map SpecReminder.id
  (recs.map fun r =>
      if selIds.contains r.id then { r with state := .inFlight now } else r,
    selected)

/-! ### Concrete stores used as witnesses and counterexamples -/

/-- A store holding one item and one unsent schedule whose `due_at = 50` is
already past at startup instant `100`. -/
def exDbOne : DBState :=
  ⟨[⟨1, 42, "Photosynthesis basics", 0⟩], [⟨1, 1, 42, 50, 1, 0⟩], 2, 2⟩

/-- The job that both concurrently started processes register for schedule 1
of `exDbOne` at startup instant `100`. -/
def exJobOne : Job := schedule_one_job 1 42 105 1 "Photosynthesis basics"

/-- A store with two items of owner 42: item 1 (created first) has an unsent
schedule due at `100`, item 2 an unsent schedule due at `200`. -/
def exDbTwo : DBState :=
  ⟨[⟨1, 42, "alpha", 0⟩, ⟨2, 42, "beta", 10⟩],
    [⟨1, 1, 42, 100, 1, 0⟩, ⟨2, 2, 42, 200, 1, 0⟩], 3, 3⟩

/-- A store whose single schedule is already sent. -/
def exDbSent : DBState :=
  ⟨[⟨1, 42, "alpha", 0⟩], [⟨1, 1, 42, 50, 1, 1⟩], 2, 2⟩

/-! ### Helper lemmas -/

theorem joinItem_fields {db : DBState} {s : Schedule} {r : SchedRow}
    (h : joinItem db s = some r) :
    r.schedule_id = s.id ∧ r.chat_id = s.chat_id ∧ r.due_at = s.due_at ∧
      r.days = s.days := by
  unfold joinItem at h
  rcases Option.map_eq_some'.mp h with ⟨i, _, hi⟩
  subst hi
  exact ⟨rfl, rfl, rfl, rfl⟩

theorem joinItem_isSome {db : DBState} {s : Schedule} (hwf : wfDB db)
    (hs : s ∈ db.schedules) : ∃ row, joinItem db s = some row := by
  obtain ⟨i, hi, hid⟩ := hwf s hs
  have hsome : (db.items.find? fun i2 => i2.id == s.item_id).isSome := by
    rw [List.find?_isSome]
    exact ⟨i, hi, by simp [hid]⟩
  obtain ⟨i0, h0⟩ := Option.isSome_iff_exists.mp hsome
  exact ⟨⟨s.id, s.chat_id, s.due_at, s.days, i0.text⟩, by simp [joinItem, h0]⟩

theorem mem_of_mem_take_insertionSort {α : Type} (r : α → α → Prop)
    [DecidableRel r] {l : List α} {n : Nat} {x : α}
    (h : x ∈ (List.insertionSort r l).take n) : x ∈ l :=
  (List.mem_insertionSort r).mp (List.mem_of_mem_take h)

theorem head_insertionSort_min {α : Type} (r : α → α → Prop) [DecidableRel r]
    [IsTotal α r] [IsTrans α r] {l : List α} {a : α}
    (h : (List.insertionSort r l).head? = some a) : a ∈ l ∧ ∀ b ∈ l, r a b := by
  obtain ⟨t, ht⟩ := List.head?_eq_some_iff.mp h
  have hsor := List.sorted_insertionSort r l
  rw [ht] at hsor
  refine ⟨(List.mem_insertionSort r).mp (ht ▸ List.mem_cons_self a t), ?_⟩
  intro b hb
  have hbmem : b ∈ List.insertionSort r l := (List.mem_insertionSort r).mpr hb
  rw [ht] at hbmem
  rcases List.mem_cons.mp hbmem with rfl | hbt
  · exact (IsTotal.total b b).elim id id
  · exact List.rel_of_sorted_cons hsor b hbt

theorem head_of_take_head {α : Type} {l : List α} {n : Nat} {a : α}
    (h : (l.take n).head? = some a) : l.head? = some a := by
  cases l with
  | nil => simp at h
  | cons b t =>
    cases n with
    | zero => simp at h
    | succ m => simpa using h

theorem map_eq_self_of_mem {α : Type} {f : α → α} :
    ∀ {l : List α}, (∀ x ∈ l, f x = x) → l.map f = l
  | [], _ => rfl
  | a :: t, h => by
    simp only [List.map_cons]
    rw [h a (List.mem_cons_self a t),
      map_eq_self_of_mem fun x hx => h x (List.mem_cons_of_mem a hx)]

theorem update_sent_self {s : Schedule} (h : s.sent = 1) :
    ({ s with sent := 1 } : Schedule) = s := by
  cases s
  simp_all

theorem startup_due_ge (now due : Nat) : due ≤ startup_due now due := by
  unfold startup_due
  split
  · omega
  · exact Nat.le_refl due

theorem mark_sent_keeps_sent {db : DBState} {s : Schedule} (sid : Nat)
    (hmem : s ∈ db.schedules) (hsent : s.sent = 1) :
    s ∈ (db_mark_sent db sid).schedules := by
  refine List.mem_map.mpr ⟨s, hmem, ?_⟩
  split
  · exact update_sent_self hsent
  · rfl

theorem mem_schedules_loop {s : Schedule} :
    ∀ (ds : List Nat) (db : DBState) (item_id : Nat) (chat_id : Int)
      (created : Nat) (text : String), s ∈ db.schedules →
      s ∈ (add_schedules_loop db item_id chat_id created text ds).1.schedules
  | [], _, _, _, _, _, h => h
  | d :: ds, db, i, c, cr, t, h =>
    mem_schedules_loop ds (db_add_schedule db i c (cr + d * 86400) d).1 i c cr t
      (List.mem_append_left _ h)

theorem mem_schedules_add {db : DBState} {s : Schedule} (chat_id : Int)
    (args : List String) (now : Nat) (h : s ∈ db.schedules) :
    s ∈ (add db chat_id args now).db.schedules := by
  cases args with
  | nil => exact h
  | cons x xs =>
    exact mem_schedules_loop REPEAT_DAYS _ _ chat_id now
      ((String.intercalate " " (x :: xs)).trim) h

/-- Every store-mutating operation of the program, as an interpreter over the
database state. -/
inductive DBOp where
  | addItemOp (chat_id : Int) (text : String) (created_at : Nat)
  | addScheduleOp (item_id : Nat) (chat_id : Int) (due_at : Nat) (days : Nat)
  | markSentOp (schedule_id : Nat)
  | addCommandOp (chat_id : Int) (args : List String) (now : Nat)
  | remindOp (job : Job) (delivered : Bool)
deriving Repr, DecidableEq

/-- Apply one operation to the store. -/
def applyOp (db : DBState) : DBOp → DBState
  | .addItemOp c t ca => (db_add_item db c t ca).1
  | .addScheduleOp i c d y => (db_add_schedule db i c d y).1
  | .markSentOp sid => db_mark_sent db sid
  | .addCommandOp c a n => (add db c a n).db
  | .remindOp j dv => (remind_job db j dv).1

/-! ### Claims -/

/-- Claim C1 (code bug): the code has no atomic claim step.  The selection a
starting process performs (`db_pending_future` feeding `main_startup_jobs`)
transitions no record state, so two processes starting concurrently against
the same store both select schedule 1 — the id sets coincide instead of being
disjoint — and `remind_job` fires once per process, delivering the same
reminder twice (the second delivery goes through even after the first already
marked it sent). -/
theorem concurrent_selection_not_disjoint :
    (main_startup_jobs exDbOne 100).map Job.schedule_id = [1]
      ∧ ¬ List.Disjoint ((main_startup_jobs exDbOne 100).map Job.schedule_id)
          ((main_startup_jobs exDbOne 100).map Job.schedule_id)
      ∧ (remind_job exDbOne exJobOne true).2.length = 1
      ∧ (remind_job (remind_job exDbOne exJobOne true).1 exJobOne true).2.length
          = 1 :=
  ⟨by decide, fun h => h (show (1 : Nat) ∈ _ by decide) (by decide), rfl, rfl⟩

/-- Claim C2 (code bug): `remind_job` marks the schedule sent in the store
before awaiting `send_message`.  Here the delivery attempt fails
(`delivered = false`: no message goes out), yet the record ends up with
`sent = 1`. -/
theorem marked_sent_while_delivery_failed :
    (remind_job exDbOne exJobOne false).1.schedules.map Schedule.sent = [1]
      ∧ (remind_job exDbOne exJobOne false).2 = [] := by
  exact ⟨rfl, rfl⟩

/-- Claim C3: a nonempty `/add` submission by `chat_id` at instant `now`
creates exactly one item carrying the owner, the joined payload and
`created_at = now`, and exactly four schedules — one per offset of
`REPEAT_DAYS = [1, 3, 7, 30]` — all sharing that item and owner, each with
`due_at = now + offset` days and initial state `sent = 0` (Pending). -/
theorem add_creates_one_schedule_per_offset (db : DBState) (chat_id : Int)
    (args : List String) (now : Nat) (h : args ≠ []) :
    (add db chat_id args now).db.items
        = db.items
          ++ [⟨db.nextItemId, chat_id, (String.intercalate " " args).trim, now⟩]
      ∧ (add db chat_id args now).db.schedules
        = db.schedules
          ++ [⟨db.nextScheduleId, db.nextItemId, chat_id, now + 1 * 86400, 1, 0⟩,
            ⟨db.nextScheduleId + 1, db.nextItemId, chat_id, now + 3 * 86400, 3, 0⟩,
            ⟨db.nextScheduleId + 2, db.nextItemId, chat_id, now + 7 * 86400, 7, 0⟩,
            ⟨db.nextScheduleId + 3, db.nextItemId, chat_id, now + 30 * 86400, 30,
              0⟩] := by
  cases args with
  | nil => exact absurd rfl h
  | cons a as =>
    constructor <;>
      simp [add, add_schedules_loop, db_add_item, db_add_schedule, REPEAT_DAYS,
        schedule_one_job, List.append_assoc]

/-- Witness for C3 at a concrete store and submission. -/
theorem add_creates_one_schedule_per_offset_witness :
    (add exDbOne 42 ["hello", "world"] 1000).db.schedules.length
      = exDbOne.schedules.length + 4 := by
  have h := add_creates_one_schedule_per_offset exDbOne 42 ["hello", "world"] 1000
    (by decide)
  rw [h.2]
  rfl

/-- Claim C4: a schedule record already in the terminal state (`sent = 1`; the
code has no `Failed` state, so `Sent` is its only terminal state) is preserved
verbatim — every field unchanged — by every store-mutating operation of the
program. -/
theorem terminal_record_absorbing (db : DBState) (op : DBOp) (s : Schedule)
    (hmem : s ∈ db.schedules) (hsent : s.sent = 1) :
    s ∈ (applyOp db op).schedules := by
  cases op with
  | addItemOp c t ca => exact hmem
  | addScheduleOp i c d y => exact List.mem_append_left _ hmem
  | markSentOp sid => exact mark_sent_keeps_sent sid hmem hsent
  | addCommandOp c a n => exact mem_schedules_add c a n hmem
  | remindOp j dv => exact mark_sent_keeps_sent j.schedule_id hmem hsent

/-- Witness for C4: the already-sent record of `exDbSent` survives a duplicate
`db_mark_sent` unchanged. -/
theorem terminal_record_absorbing_witness :
    (⟨1, 1, 42, 50, 1, 1⟩ : Schedule) ∈ (applyOp exDbSent (DBOp.markSentOp 1)).schedules :=
  terminal_record_absorbing exDbSent (DBOp.markSentOp 1) ⟨1, 1, 42, 50, 1, 1⟩
    (by decide) rfl

/-- Claim C7: `db_mark_sent` — the code's realization of
`Finalize(id, delivered, now)` — applied to an id whose record is already sent
leaves the whole store unchanged; it is a total function of the state, so no
error is raised. -/
theorem mark_sent_on_sent_record_noop (db : DBState) (sid : Nat)
    (h : ∀ s ∈ db.schedules, s.id = sid → s.sent = 1) :
    db_mark_sent db sid = db := by
  unfold db_mark_sent
  have hmap : (db.schedules.map fun s =>
      if s.id = sid then { s with sent := 1 } else s) = db.schedules := by
    apply map_eq_self_of_mem
    intro s hs
    split
    · exact update_sent_self (h s hs (by assumption))
    · rfl
  rw [hmap]

/-- Witness for C7 on the concrete store `exDbSent`. -/
theorem mark_sent_on_sent_record_noop_witness :
    db_mark_sent exDbSent 1 = exDbSent :=
  mark_sent_on_sent_record_noop exDbSent 1 (by decide)

/-- Claim C10: `/add` with an empty argument list replies with the usage
message, registers no job and leaves the store untouched. -/
theorem add_empty_args_noop (db : DBState) (chat_id : Int) (now : Nat) :
    add db chat_id [] now = ⟨db, [], [usage_reply]⟩ := rfl

/-- Claim C5 (modelled from the spec, which alone defines the lease): a record
claimed at `c` and never finalized (`state = InFlight c`) is never part of a
`ClaimDue` selection while `now < c + lease`, and it satisfies the selection
predicate again exactly once `c + lease ≤ now`. -/
theorem lease_expiry_gates_reclaim (recs : List SpecReminder)
    (now lease limit c : Nat) (r : SpecReminder)
    (hstate : r.state = RState.inFlight c) :
    (now < c + lease → r ∉ (ClaimDue recs now lease limit).2)
      ∧ (c + lease ≤ now → claimEligible now lease r = true) := by
  constructor
  · intro hlt hmem
    simp only [ClaimDue] at hmem
    have hr : r ∈ recs.filter (claimEligible now lease) :=
      mem_of_mem_take_insertionSort specDueLe hmem
    have helig := (List.mem_filter.mp hr).2
    rw [claimEligible, hstate] at helig
    simp at helig
    omega
  · intro hle
    rw [claimEligible, hstate]
    simpa using hle

/-- Witness for C5: a record claimed at `100` with a 60-second lease is not in
the selection at `now = 120` and is eligible again at `now = 170`. -/
theorem lease_expiry_gates_reclaim_witness :
    ((⟨1, 50, RState.inFlight 100⟩ : SpecReminder)
        ∉ (ClaimDue [⟨1, 50, RState.inFlight 100⟩] 120 60 10).2)
      ∧ claimEligible 170 60 ⟨1, 50, RState.inFlight 100⟩ = true :=
  ⟨(lease_expiry_gates_reclaim [⟨1, 50, RState.inFlight 100⟩] 120 60 10 100
      ⟨1, 50, RState.inFlight 100⟩ rfl).1 (by decide),
    (lease_expiry_gates_reclaim [] 170 60 10 100
      ⟨1, 50, RState.inFlight 100⟩ rfl).2 (by decide)⟩

/-- Claim C6: whenever a registered job fires at an instant `t` (the job queue
never fires a job before its `when`, hence the hypothesis `j.when ≤ t`), the
schedule it marks sent satisfies `due_at ≤ t` — reading `sent_at` as the
marking instant, since the code stores no `sent_at` column, no reminder is
finalized as sent before its due instant.  Both registration paths are
covered: `main`'s startup loop and `/add`. -/
theorem mark_not_before_due :
    (∀ (db : DBState) (now t : Nat) (j : Job), j ∈ main_startup_jobs db now →
      j.when ≤ t → ∃ s, s ∈ db.schedules ∧ s.id = j.schedule_id ∧ s.due_at ≤ t)
      ∧ (∀ (db : DBState) (chat_id : Int) (args : List String) (now t : Nat)
        (j : Job), j ∈ (add db chat_id args now).jobs → j.when ≤ t →
        ∃ s, s ∈ (add db chat_id args now).db.schedules ∧ s.id = j.schedule_id
          ∧ s.due_at ≤ t) := by
  constructor
  · intro db now t j hj hwt
    simp only [main_startup_jobs, List.mem_map] at hj
    obtain ⟨r, hr, rfl⟩ := hj
    simp only [db_pending_future, List.mem_filterMap] at hr
    obtain ⟨s, hs, hjoin⟩ := hr
    obtain ⟨hid, _, hdue, _⟩ := joinItem_fields hjoin
    simp only [schedule_one_job] at hwt
    refine ⟨s, (List.mem_filter.mp hs).1, hid.symm ▸ rfl, ?_⟩
    rw [← hdue]
    exact Nat.le_trans (startup_due_ge now r.due_at) hwt
  · intro db chat_id args now t j hj hwt
    cases args with
    | nil => simp [add] at hj
    | cons a as =>
      simp only [add, List.isEmpty_cons, Bool.false_eq_true, if_false,
        REPEAT_DAYS, add_schedules_loop, db_add_item, db_add_schedule,
        schedule_one_job, List.mem_cons, List.not_mem_nil, or_false] at hj
      rcases hj with rfl | rfl | rfl | rfl
      · exact ⟨⟨db.nextScheduleId, db.nextItemId, chat_id, now + 1 * 86400, 1, 0⟩,
          by simp [add, REPEAT_DAYS, add_schedules_loop, db_add_item,
            db_add_schedule], rfl, hwt⟩
      · exact ⟨⟨db.nextScheduleId + 1, db.nextItemId, chat_id, now + 3 * 86400,
          3, 0⟩,
          by simp [add, REPEAT_DAYS, add_schedules_loop, db_add_item,
            db_add_schedule], rfl, hwt⟩
      · exact ⟨⟨db.nextScheduleId + 1 + 1, db.nextItemId, chat_id,
          now + 7 * 86400, 7, 0⟩,
          by simp [add, REPEAT_DAYS, add_schedules_loop, db_add_item,
            db_add_schedule], rfl, hwt⟩
      · exact ⟨⟨db.nextScheduleId + 1 + 1 + 1, db.nextItemId, chat_id,
          now + 30 * 86400, 30, 0⟩,
          by simp [add, REPEAT_DAYS, add_schedules_loop, db_add_item,
            db_add_schedule], rfl, hwt⟩

/-- Witness for C6: the startup job of `exDbOne` fires at `t = 105` and the
schedule it marks was due at `50 ≤ 105`. -/
theorem mark_not_before_due_witness :
    ∃ s, s ∈ exDbOne.schedules ∧ s.id = exJobOne.schedule_id ∧ s.due_at ≤ 105 :=
  mark_not_before_due.1 exDbOne 100 105 exJobOne (by decide) (by decide)

/-- Claim C9: startup leaves the store (in particular every persisted
`due_at`) unchanged, and registers for every unsent schedule a job firing at
`now + 5` seconds when the stored `due_at` has already passed, and at the
stored `due_at` otherwise. -/
theorem startup_reschedules_unsent (db : DBState) (now : Nat) (hwf : wfDB db) :
    (main_startup db now).1 = db
      ∧ ∀ s ∈ db.schedules, s.sent = 0 →
        ∃ j ∈ (main_startup db now).2, j.schedule_id = s.id
          ∧ j.when = (if s.due_at ≤ now then now + 5 else s.due_at) := by
  refine ⟨rfl, ?_⟩
  intro s hs hsent
  obtain ⟨row, hrow⟩ := joinItem_isSome hwf hs
  obtain ⟨hid, hchat, hdue, hdays⟩ := joinItem_fields hrow
  refine ⟨schedule_one_job row.schedule_id row.chat_id
      (startup_due now row.due_at) row.days row.text, ?_, ?_, ?_⟩
  · simp only [main_startup, main_startup_jobs, List.mem_map]
    refine ⟨row, ?_, rfl⟩
    simp only [db_pending_future, List.mem_filterMap]
    exact ⟨s, List.mem_filter.mpr ⟨hs, by simp [hsent]⟩, hrow⟩
  · exact hid
  · rw [show (schedule_one_job row.schedule_id row.chat_id
        (startup_due now row.due_at) row.days row.text).when
        = startup_due now row.due_at from rfl, hdue, startup_due]

/-- Witness for C9 on `exDbOne` at startup instant `100`: the past-due
schedule's job fires at `105`. -/
theorem startup_reschedules_unsent_witness :
    ∃ j ∈ (main_startup exDbOne 100).2,
      j.schedule_id = (⟨1, 1, 42, 50, 1, 0⟩ : Schedule).id
        ∧ j.when = (if (⟨1, 1, 42, 50, 1, 0⟩ : Schedule).due_at ≤ 100
            then 100 + 5 else (⟨1, 1, 42, 50, 1, 0⟩ : Schedule).due_at) :=
  (startup_reschedules_unsent exDbOne 100 (by decide)).2 ⟨1, 1, 42, 50, 1, 0⟩
    (by decide) rfl

/-- Descending item id on `db_list_items` result rows. -/
def listRowIdGe (a b : ListRow) : Prop := b.item_id ≤ a.item_id

/-- Claim C8 is false as stated: on the store `exDbTwo`, `db_next_schedules`
(the code behind `/next`) returns two rows rather than the single earliest
record, and `db_list_items` (the code behind `/list`) returns its rows ordered
by descending item id — their annotated due instants here are `[200, 100]`,
not ascending `due_at`. -/
theorem list_next_counterexample :
    (db_next_schedules exDbTwo 42 10).length = 2
      ∧ (db_list_items exDbTwo 42 20).map ListRow.next_due_at
        = [some 200, some 100] := by
  exact ⟨rfl, rfl⟩

/-- Claim C8 amended: `db_next_schedules` returns up to `limit` of the owner's
unsent reminders in ascending `due_at` order (every row comes from an unsent
schedule of the owner; the first row, when present, has minimal `due_at`
among them), and is empty exactly when the owner has none; `db_list_items`
returns one row per item of the owner — its row count is exactly
`min limit (number of the owner's items)`, and whenever the limit does not
truncate, every item of the owner yields a row, including an item whose
reminders are all sent — ordered by descending item id, each annotated with
the `due_at` and `days` of that item's earliest unsent schedule, both
annotations `NULL` when all its schedules are sent.  Both are pure reads of
the store. -/
theorem list_next_amended (db : DBState) (c : Int) (n m : Nat) :
    List.Sorted dueLe (db_next_schedules db c n)
      ∧ (∀ r ∈ db_next_schedules db c n, ∃ s ∈ db.schedules,
        s.chat_id = c ∧ s.sent = 0 ∧ s.id = r.schedule_id
          ∧ s.due_at = r.due_at ∧ s.days = r.days)
      ∧ (wfDB db → 0 < n → (db_next_schedules db c n = []
        ↔ ∀ s ∈ db.schedules, s.chat_id = c → s.sent ≠ 0))
      ∧ (wfDB db → ∀ r, (db_next_schedules db c n).head? = some r →
        ∀ s ∈ db.schedules, s.chat_id = c → s.sent = 0 → r.due_at ≤ s.due_at)
      ∧ List.Sorted listRowIdGe (db_list_items db c m)
      ∧ (∀ r ∈ db_list_items db c m, ∃ i ∈ db.items,
        i.chat_id = c ∧ i.id = r.item_id ∧ r.text = i.text
          ∧ r.created_at = i.created_at
          ∧ (r.next_due_at = none → r.next_days = none
            ∧ ∀ s ∈ db.schedules, s.item_id = i.id → s.sent ≠ 0)
          ∧ ∀ d, r.next_due_at = some d → ∃ s0 ∈ db.schedules,
            s0.item_id = i.id ∧ s0.sent = 0 ∧ s0.due_at = d
              ∧ r.next_days = some s0.days
              ∧ ∀ s2 ∈ db.schedules, s2.item_id = i.id → s2.sent = 0 →
                d ≤ s2.due_at)
      ∧ (db_list_items db c m).length
        = min m (db.items.filter fun i => i.chat_id == c).length
      ∧ (∀ i ∈ db.items, i.chat_id = c →
        (db.items.filter fun i2 => i2.chat_id == c).length ≤ m →
        ∃ r ∈ db_list_items db c m, r.item_id = i.id) := by
  refine ⟨?_, ?_, ?_, ?_, ?_, ?_, ?_, ?_⟩
  · exact List.Pairwise.sublist (List.take_sublist _ _)
      (List.sorted_insertionSort dueLe _)
  · intro r hr
    have hr2 := mem_of_mem_take_insertionSort dueLe hr
    obtain ⟨s, hs, hjoin⟩ := List.mem_filterMap.mp hr2
    have hsf := List.mem_filter.mp hs
    obtain ⟨hid, _, hdue, hdays⟩ := joinItem_fields hjoin
    have hb : s.chat_id = c ∧ s.sent = 0 := by simpa using hsf.2
    exact ⟨s, hsf.1, hb.1, hb.2, hid.symm, hdue.symm, hdays.symm⟩
  · intro hwf hn
    constructor
    · intro hempty s hs hchat hsent
      obtain ⟨row, hrow⟩ := joinItem_isSome hwf hs
      have hpred : (s.chat_id == c && s.sent == 0) = true := by
        rw [hchat, hsent]; simp
      have hmemrows : row ∈ (db.schedules.filter
          fun s2 => s2.chat_id == c && s2.sent == 0).filterMap (joinItem db) :=
        List.mem_filterMap.mpr ⟨s, List.mem_filter.mpr ⟨hs, hpred⟩, hrow⟩
      have hne := List.ne_nil_of_mem ((List.mem_insertionSort dueLe).mpr hmemrows)
      rcases List.take_eq_nil_iff.mp hempty with h0 | h0
      · omega
      · exact hne h0
    · intro hall
      unfold db_next_schedules
      have hfil : (db.schedules.filter fun s => s.chat_id == c && s.sent == 0)
          = [] := by
        rw [List.filter_eq_nil_iff]
        intro s hs
        simp only [Bool.and_eq_true, beq_iff_eq, decide_eq_true_eq, not_and]
        exact fun h1 h2 => hall s hs h1 h2
      simp [hfil]
  · intro hwf r hhead s hs hchat hsent
    have hhead2 := head_of_take_head hhead
    obtain ⟨-, hmin⟩ := head_insertionSort_min dueLe hhead2
    obtain ⟨row, hrow⟩ := joinItem_isSome hwf hs
    have hpred : (s.chat_id == c && s.sent == 0) = true := by
      rw [hchat, hsent]; simp
    have hmemrows : row ∈ (db.schedules.filter
        fun s2 => s2.chat_id == c && s2.sent == 0).filterMap (joinItem db) :=
      List.mem_filterMap.mpr ⟨s, List.mem_filter.mpr ⟨hs, hpred⟩, hrow⟩
    obtain ⟨-, -, hdue, -⟩ := joinItem_fields hrow
    exact hdue ▸ hmin row hmemrows
  · have hp : List.Pairwise itemIdGe
        ((List.insertionSort itemIdGe
          (db.items.filter fun i => i.chat_id == c)).take m) :=
      List.Pairwise.sublist (List.take_sublist _ _)
        (List.sorted_insertionSort itemIdGe _)
    exact List.pairwise_map.mpr (hp.imp fun h => h)
  · intro r hr
    obtain ⟨i, hi, rfl⟩ := List.mem_map.mp hr
    have hifil := mem_of_mem_take_insertionSort itemIdGe hi
    have hif := List.mem_filter.mp hifil
    have hchat : i.chat_id = c := by simpa using hif.2
    refine ⟨i, hif.1, hchat, rfl, rfl, rfl, ?_, ?_⟩
    · intro hnone
      have h0 : nextUnsent db i.id = none := Option.map_eq_none'.mp hnone
      refine ⟨Option.map_eq_none'.mpr h0, ?_⟩
      intro s hs hitem hsent
      unfold nextUnsent at h0
      have hsort := List.head?_eq_none_iff.mp h0
      have hlen := List.length_insertionSort schedDueLe
        (db.schedules.filter fun s2 => s2.item_id == i.id && s2.sent == 0)
      rw [hsort] at hlen
      have hfil := List.length_eq_zero.mp hlen.symm
      have := List.filter_eq_nil_iff.mp hfil s hs
      simp [hitem, hsent] at this
    · intro d hd
      rcases Option.map_eq_some'.mp hd with ⟨s0, hs0, hs0d⟩
      have hdays : (nextUnsent db i.id).map Schedule.days = some s0.days :=
        Option.map_eq_some'.mpr ⟨s0, hs0, rfl⟩
      unfold nextUnsent at hs0
      obtain ⟨hs0mem, hmin⟩ := head_insertionSort_min schedDueLe hs0
      have hs0f := List.mem_filter.mp hs0mem
      have hb : s0.item_id = i.id ∧ s0.sent = 0 := by simpa using hs0f.2
      refine ⟨s0, hs0f.1, hb.1, hb.2, hs0d, hdays, ?_⟩
      intro s2 hs2 hitem2 hsent2
      have hpred2 : (s2.item_id == i.id && s2.sent == 0) = true := by
        rw [hitem2, hsent2]; simp
      have hmem2 : s2 ∈ db.schedules.filter
          fun s3 => s3.item_id == i.id && s3.sent == 0 :=
        List.mem_filter.mpr ⟨hs2, hpred2⟩
      exact hs0d ▸ hmin s2 hmem2
  · simp only [db_list_items, List.length_map, List.length_take,
      List.length_insertionSort]
  · intro i hi hchat hlen
    have hif : i ∈ db.items.filter fun i2 => i2.chat_id == c :=
      List.mem_filter.mpr ⟨hi, by rw [hchat]; simp⟩
    have hslen : (List.insertionSort itemIdGe
        (db.items.filter fun i2 => i2.chat_id == c)).length ≤ m := by
      rw [List.length_insertionSort]
      exact hlen
    refine ⟨⟨i.id, i.text, i.created_at,
      (nextUnsent db i.id).map Schedule.due_at,
      (nextUnsent db i.id).map Schedule.days⟩, ?_, rfl⟩
    unfold db_list_items
    rw [List.take_of_length_le hslen]
    exact List.mem_map.mpr ⟨i, (List.mem_insertionSort itemIdGe).mpr hif, rfl⟩

/-- Witness for the amended C8: on `exDbTwo` the head row of
`db_next_schedules` has minimal due instant among owner 42's unsent
schedules. -/
theorem list_next_amended_witness :
    (⟨1, 42, 100, 1, "alpha"⟩ : SchedRow).due_at
      ≤ (⟨2, 2, 42, 200, 1, 0⟩ : Schedule).due_at :=
  (list_next_amended exDbTwo 42 10 20).2.2.2.1 (by decide)
    ⟨1, 42, 100, 1, "alpha"⟩ (by decide) ⟨2, 2, 42, 200, 1, 0⟩ (by decide) rfl rfl

end RepeatBot
